import Mathlib

/-!
Verification development for the scannApp core services.

The TypeScript services are shallowly embedded as Lean definitions:
  * `DataProcessingService` (barcode validation / format detection),
  * `TransmissionQueueService` (offline queue, drain, batch send),
  * `USBCommunicationProtocol` (pending-request table, timeout sweep,
    incoming-message processing, send-with-acknowledgment),
  * `USBService` (connection state machine, reconnect backoff).

Strings from the source are embedded as `List Char`; JavaScript numbers
appearing in exact integer positions are `Nat`/`Int`; the backoff delay
(which is a non-integral float) is `ℚ`.
-/

namespace Scann

/-- Barcode formats, from `DataProcessingService.BarcodeFormat`. -/
inductive BarcodeFormat where
  | CODE128
  | CODE39
  | EAN13
  | EAN8
  | UPC_E
  | QR
  | UNKNOWN
deriving DecidableEq, Repr

/-- Numeric value of a digit character (JS `Number(c)` on a digit). -/
def digitVal (c : Char) : Nat := c.toNat - 48

/-- The character class of the JS regex `/^[\x20-\x7E]+$/` (printable ASCII). -/
def isPrintableAscii (c : Char) : Bool := 0x20 ≤ c.toNat && c.toNat ≤ 0x7E

/-- The character class of the CODE39 regex in `validateBarcode`. -/
def isCode39Char (c : Char) : Bool :=
  (('A' ≤ c && c ≤ 'Z') || ('0' ≤ c && c ≤ '9')) ||
    (((c = '-' || c = '.') || (c = ' ' || c = '$')) || ((c = '/' || c = '+') || c = '%'))

/-- Whitespace characters stripped by JS `String.prototype.trim` (ASCII part);
`!barcode.trim()` is true exactly when every character is whitespace. -/
def isJsWhitespace (c : Char) : Bool :=
  ((c = ' ' || c = '\t') || (c = '\n' || c = '\r')) || (c = '\x0b' || c = '\x0c')

/-- The guard `!barcode || !barcode.trim()` at the top of `validateBarcode`
and `detectBarcodeFormat`. -/
def isBlank (l : List Char) : Bool := l.isEmpty || l.all isJsWhitespace

/-- The weighted-sum loop of `validateCheckDigit`: the digits are consumed
rightmost-first, `m` is the current multiplier (3 initially, alternating
`multiplier === 3 ? 1 : 3`). -/
def wsumFrom (m : Nat) : List Nat → Nat
  | [] => 0
  | d :: ds => m * d + wsumFrom (if m = 3 then 1 else 3) ds

/-- `DataProcessingService.validateCheckDigit`: requires `/^\d+$/`, pops the
last digit as the check digit, sums the remaining digits right-to-left with
multipliers 3,1,3,…, and compares with `(10 - (sum % 10)) % 10`. -/
def validateCheckDigit (l : List Char) : Bool :=
  if !(decide (l ≠ []) && l.all Char.isDigit) then false
  else
    match (l.map digitVal).reverse with
    | [] => false
    | check :: rest => decide (check = (10 - (wsumFrom 3 rest) % 10) % 10)

/-- `DataProcessingService.validateBarcode`. -/
def validateBarcode (l : List Char) : BarcodeFormat → Bool
  | f =>
    if isBlank l then false
    else
      match f with
      | .CODE128 => decide (1 < l.length) && decide (l.length ≤ 80) && l.all isPrintableAscii
      | .CODE39 => decide (l ≠ []) && l.all isCode39Char
      | .EAN13 =>
          if decide (l.length = 13) && l.all Char.isDigit then validateCheckDigit l else false
      | .EAN8 =>
          if decide (l.length = 8) && l.all Char.isDigit then validateCheckDigit l else false
      | .UPC_E =>
          if decide (l.length = 8) && l.all Char.isDigit then validateCheckDigit l else false
      | .QR => decide (0 < l.length) && decide (l.length ≤ 4296)
      | .UNKNOWN => decide (0 < l.length)

/-- `DataProcessingService.detectBarcodeFormat`. -/
def detectBarcodeFormat (l : List Char) : BarcodeFormat :=
  if isBlank l then .UNKNOWN
  else if (decide (l.length = 13) && l.all Char.isDigit) && validateCheckDigit l then .EAN13
  else if (decide (l.length = 8) && l.all Char.isDigit) && validateCheckDigit l then .EAN8
  else if (decide (l.length = 8) && l.all Char.isDigit) && validateCheckDigit l then .UPC_E
  else if decide (l ≠ []) && l.all isCode39Char then .CODE39
  else if decide (l ≠ []) && l.all isPrintableAscii then .CODE128
  else if decide (20 < l.length) then .QR
  else .UNKNOWN

mutual

/-- Spec-side weighted sum, weights 3,1,3,… over a rightmost-first digit
list, written directly from the spec's check-digit description. -/
def specSum3 : List Nat → Nat
  | [] => 0
  | d :: ds => 3 * d + specSum1 ds

/-- Companion of `specSum3` carrying weight 1. -/
def specSum1 : List Nat → Nat
  | [] => 0
  | d :: ds => 1 * d + specSum3 ds

end

/-- Spec-side check-digit condition: the last digit equals
`(10 - (sum mod 10)) mod 10` where the sum weights the remaining digits
3,1,3,… starting from the rightmost non-check digit. -/
def specCheckDigitOk (l : List Char) : Bool :=
  match l.reverse with
  | [] => false
  | c :: rest => decide (digitVal c = (10 - (specSum3 (rest.map digitVal)) % 10) % 10)

theorem wsumFrom_eq_specSum (ds : List Nat) :
    wsumFrom 3 ds = specSum3 ds ∧ wsumFrom 1 ds = specSum1 ds := by
  induction ds with
  | nil => constructor <;> rfl
  | cons d ds ih =>
      constructor <;> simp [wsumFrom, specSum3, specSum1, ih.1, ih.2]

theorem digit_not_whitespace {c : Char} (h : c.isDigit = true) :
    isJsWhitespace c = false := by
  by_contra hw
  rw [Bool.not_eq_false] at hw
  simp only [isJsWhitespace, Bool.or_eq_true, decide_eq_true_eq] at hw
  rcases hw with ((hc | hc) | (hc | hc)) | (hc | hc) <;> subst hc <;> revert h <;> decide

theorem validateCheckDigit_eq_spec {l : List Char}
    (hne : l ≠ []) (hdig : l.all Char.isDigit = true) :
    validateCheckDigit l = specCheckDigitOk l := by
  unfold validateCheckDigit specCheckDigitOk
  have hguard : (!(decide (l ≠ []) && l.all Char.isDigit)) = false := by
    simp [hne, hdig]
  rw [hguard]
  simp only [Bool.false_eq_true, if_false]
  have hmap : (List.map digitVal l).reverse = (l.reverse).map digitVal :=
    (List.map_reverse digitVal l).symm
  rw [hmap]
  rcases hrev : l.reverse with _ | ⟨c, rest⟩
  · exact absurd (List.reverse_eq_nil_iff.mp hrev) hne
  · simp only [List.map_cons]
    rw [(wsumFrom_eq_specSum (rest.map digitVal)).1]

/-- Characterisation of the EAN/UPC branches of `validateBarcode`. -/
theorem validateBarcode_ean_iff (l : List Char) (n : Nat) (hn : n = 13 ∨ n = 8)
    (f : BarcodeFormat)
    (hf : (f = .EAN13 ∧ n = 13) ∨ ((f = .EAN8 ∨ f = .UPC_E) ∧ n = 8)) :
    validateBarcode l f = true ↔
      (l.length = n ∧ l.all Char.isDigit = true ∧ specCheckDigitOk l = true) := by
  have hmain : ∀ m : Nat, 0 < m →
      ((if isBlank l then false
        else if decide (l.length = m) && l.all Char.isDigit then validateCheckDigit l
        else false) = true ↔
      (l.length = m ∧ l.all Char.isDigit = true ∧ specCheckDigitOk l = true)) := by
    intro m hm
    constructor
    · intro h
      by_cases hb : isBlank l
      · simp [hb] at h
      · simp only [hb, Bool.false_eq_true, if_false] at h
        by_cases hc : decide (l.length = m) && l.all Char.isDigit
        · simp only [hc, if_true] at h
          simp only [Bool.and_eq_true, decide_eq_true_eq] at hc
          obtain ⟨hlen, hdig⟩ := hc
          have hne : l ≠ [] := by
            intro he
            rw [he] at hlen
            simp at hlen
            omega
          exact ⟨hlen, hdig, (validateCheckDigit_eq_spec hne hdig).symm.trans h⟩
        · simp [hc] at h
    · rintro ⟨hlen, hdig, hck⟩
      have hne : l ≠ [] := by
        intro he
        rw [he] at hlen
        simp at hlen
        omega
      have hb : isBlank l = false := by
        unfold isBlank
        rcases l with _ | ⟨c, rest⟩
        · exact absurd rfl hne
        · simp only [List.isEmpty_cons, List.all_cons, Bool.false_or, Bool.and_eq_false_iff]
          left
          apply digit_not_whitespace
          rw [List.all_cons, Bool.and_eq_true] at hdig
          exact hdig.1
      have hcond : (decide (l.length = m) && l.all Char.isDigit) = true := by
        simp [hlen, hdig]
      simp only [hb, Bool.false_eq_true, if_false, hcond, if_true]
      exact (validateCheckDigit_eq_spec hne hdig).trans hck
  rcases hf with ⟨hf13, hn13⟩ | ⟨hf8, hn8⟩
  · subst hf13 hn13
    exact hmain 13 (by norm_num)
  · subst hn8
    rcases hf8 with hf | hf <;> subst hf <;> exact hmain 8 (by norm_num)

/-- C1: `validateBarcode` with format EAN-13 (resp. EAN-8, UPC-E) accepts
exactly the strings of 13 (resp. 8, 8) digits whose last digit equals
`(10 - (sum mod 10)) mod 10`, the sum weighting the remaining digits
3,1,3,… from the rightmost non-check digit; moreover
`validate "9780201896831" Ean13 = true`,
`validate "9780201896830" Ean13 = false`, and
`validate "1234567" Ean8 = false`. -/
theorem c1_validateBarcode_checkDigit :
    (∀ l : List Char,
        (validateBarcode l .EAN13 = true ↔
          (l.length = 13 ∧ l.all Char.isDigit = true ∧ specCheckDigitOk l = true)) ∧
        (validateBarcode l .EAN8 = true ↔
          (l.length = 8 ∧ l.all Char.isDigit = true ∧ specCheckDigitOk l = true)) ∧
        (validateBarcode l .UPC_E = true ↔
          (l.length = 8 ∧ l.all Char.isDigit = true ∧ specCheckDigitOk l = true))) ∧
    validateBarcode "9780201896831".data .EAN13 = true ∧
    validateBarcode "9780201896830".data .EAN13 = false ∧
    validateBarcode "1234567".data .EAN8 = false := by
  refine ⟨fun l => ⟨?_, ?_, ?_⟩, by decide, by decide, by decide⟩
  · exact validateBarcode_ean_iff l 13 (Or.inl rfl) .EAN13 (Or.inl ⟨rfl, rfl⟩)
  · exact validateBarcode_ean_iff l 8 (Or.inr rfl) .EAN8 (Or.inr ⟨Or.inl rfl, rfl⟩)
  · exact validateBarcode_ean_iff l 8 (Or.inr rfl) .UPC_E (Or.inr ⟨Or.inr rfl, rfl⟩)

/-- The detection cascade exactly as the spec words it for `detectFormat`:
EAN-13 → EAN-8 → UPC-E (exact digit length plus valid check digit), then
the CODE39 character class, then CODE128 for any printable-ASCII string,
then QR for length > 20, otherwise Unknown — with no initial guard. -/
def specDetectCascade (l : List Char) : BarcodeFormat :=
  if (decide (l.length = 13) && l.all Char.isDigit) && specCheckDigitOk l then .EAN13
  else if (decide (l.length = 8) && l.all Char.isDigit) && specCheckDigitOk l then .EAN8
  else if (decide (l.length = 8) && l.all Char.isDigit) && specCheckDigitOk l then .UPC_E
  else if decide (l ≠ []) && l.all isCode39Char then .CODE39
  else if decide (l ≠ []) && l.all isPrintableAscii then .CODE128
  else if decide (20 < l.length) then .QR
  else .UNKNOWN

theorem digits_check_cond_eq (l : List Char) (n : Nat) (hn : 0 < n) :
    ((decide (l.length = n) && l.all Char.isDigit) && validateCheckDigit l) =
      ((decide (l.length = n) && l.all Char.isDigit) && specCheckDigitOk l) := by
  by_cases h : (decide (l.length = n) && l.all Char.isDigit) = true
  · simp only [h, Bool.true_and]
    simp only [Bool.and_eq_true, decide_eq_true_eq] at h
    have hne : l ≠ [] := by
      intro he
      rw [he] at h
      simp at h
      omega
    exact validateCheckDigit_eq_spec hne h.2
  · rw [Bool.not_eq_true] at h
    simp [h]

/-- C2 as literally stated is false on the code: `detectBarcodeFormat`
returns Unknown for the whitespace-only string `" "`, while the pure
priority cascade classifies it as CODE39 (the CODE39 character class
contains the space character). -/
theorem c2_detectFormat_counterexample :
    detectBarcodeFormat [' '] ≠ specDetectCascade [' '] := by decide

/-- C2 (amended): `detectBarcodeFormat` returns Unknown immediately for
empty or whitespace-only input, and on every other string it applies the
spec's priority cascade EAN-13 → EAN-8 → UPC-E → CODE39 → CODE128 →
QR (length > 20) → Unknown; in particular
`detectFormat "9780201896831" = Ean13`, `detectFormat "ABC-123" = Code39`
and `detectFormat "hello world!" = Code128`. -/
theorem c2_detectFormat_priority :
    (∀ l : List Char,
        detectBarcodeFormat l =
          if isBlank l then .UNKNOWN else specDetectCascade l) ∧
    detectBarcodeFormat "9780201896831".data = .EAN13 ∧
    detectBarcodeFormat "ABC-123".data = .CODE39 ∧
    detectBarcodeFormat "hello world!".data = .CODE128 := by
  refine ⟨fun l => ?_, by decide, by decide, by decide⟩
  unfold detectBarcodeFormat specDetectCascade
  rw [digits_check_cond_eq l 13 (by norm_num), digits_check_cond_eq l 8 (by norm_num)]

/-! ## USBService constants and reconnect backoff -/

/-- `RETRY_DELAY = 2000` (ms), the backoff base delay of the USB service. -/
def RETRY_DELAY : ℚ := 2000

/-- `MAX_CONNECTION_RETRIES = 3`, the reconnect attempt ceiling. -/
def MAX_CONNECTION_RETRIES : Nat := 3

/-- The delay computed by `scheduleReconnect`:
`RETRY_DELAY * Math.pow(1.5, Math.min(this.connectionAttempts, 5))`.
All values involved are exactly representable, so the JS float arithmetic
is embedded as exact rational arithmetic. -/
def reconnectDelay (attempts : Nat) : ℚ :=
  RETRY_DELAY * (3 / 2 : ℚ) ^ (min attempts 5)

/-- C6: the reconnect delay equals `base_delay * 1.5^min(attempts, 5)`,
is non-decreasing in the attempt count, and for `attempts ≥ 5` it equals
the capped value `base_delay * 1.5^5`. -/
theorem c6_reconnectDelay_monotone_capped :
    (∀ a b : Nat, a ≤ b → reconnectDelay a ≤ reconnectDelay b) ∧
    (∀ a : Nat, 5 ≤ a → reconnectDelay a = RETRY_DELAY * (3 / 2 : ℚ) ^ 5) := by
  constructor
  · intro a b hab
    unfold reconnectDelay
    have hmin : min a 5 ≤ min b 5 := min_le_min hab (le_refl 5)
    have hpow : (3 / 2 : ℚ) ^ (min a 5) ≤ (3 / 2 : ℚ) ^ (min b 5) :=
      pow_le_pow_right₀ (by norm_num) hmin
    have hbase : (0 : ℚ) ≤ RETRY_DELAY := by unfold RETRY_DELAY; norm_num
    exact mul_le_mul_of_nonneg_left hpow hbase
  · intro a ha
    unfold reconnectDelay
    rw [min_eq_right ha]

/-- Witness for C6 at concrete attempt counts. -/
theorem c6_reconnectDelay_witness :
    (2 : Nat) ≤ 3 ∧ reconnectDelay 2 ≤ reconnectDelay 3 ∧
    (5 : Nat) ≤ 7 ∧ reconnectDelay 7 = RETRY_DELAY * (3 / 2 : ℚ) ^ 5 :=
  ⟨by norm_num, c6_reconnectDelay_monotone_capped.1 2 3 (by norm_num),
    by norm_num, c6_reconnectDelay_monotone_capped.2 7 (by norm_num)⟩

/-! ## TransmissionQueueService -/

/-- A queued item, from `TransmissionQueueService.QueuedItem` (the nested
`BarcodeData` record is flattened into `content`/`format`/`dataTimestamp`;
the opaque `additionalData` map does not affect any claim). -/
structure QueuedItem where
  id : String
  content : String
  format : BarcodeFormat
  dataTimestamp : Int
  retryCount : Nat
  compressed : Bool
deriving DecidableEq, Repr

/-- The queue-service state touched by `addToQueue`/`processQueue`. -/
structure TQState where
  queue : List QueuedItem
  isProcessing : Bool
deriving DecidableEq, Repr

/-- `TransmissionQueueService.addToQueue`: throws on invalid barcode,
otherwise appends a fresh item with `retryCount = 0` and returns it. -/
def addToQueue (s : TQState) (newId : String) (ts : Int) (content : String)
    (format : BarcodeFormat) (compress : Bool) :
    Except String (TQState × QueuedItem) :=
  if validateBarcode content.data format = false then
    .error "Invalid barcode format"
  else
    let item : QueuedItem := ⟨newId, content, format, ts, 0, compress⟩
    .ok ({ s with queue := s.queue ++ [item] }, item)

/-- The `for` loop of `processQueue`. The source iterates by index and on a
successful send does `splice(i, 1); i--`, so every original element is
visited exactly once in FIFO order; that loop is exactly this recursion:
skip (keep) items at `maxRetries`, drop an item whose send succeeds, and
keep an item whose send fails with `retryCount` incremented. -/
def processQueueLoop (maxRetries : Nat) (send : QueuedItem → Bool) :
    List QueuedItem → List QueuedItem
  | [] => []
  | item :: rest =>
    if maxRetries ≤ item.retryCount then
      item :: processQueueLoop maxRetries send rest
    else if send item then
      processQueueLoop maxRetries send rest
    else
      { item with retryCount := item.retryCount + 1 } ::
        processQueueLoop maxRetries send rest

/-- `TransmissionQueueService.processQueue`: no-op when already processing,
when the queue is empty, or when no device is connected; otherwise one full
pass of the loop, ending with `isProcessing = false` (the `finally`). -/
def processQueue (maxRetries : Nat) (connected : Bool) (send : QueuedItem → Bool)
    (s : TQState) : TQState :=
  if s.isProcessing || s.queue.isEmpty then s
  else if !connected then s
  else { queue := processQueueLoop maxRetries send s.queue, isProcessing := false }

/-- `TransmissionQueueService.removeFromQueue` (queue part): keep the items
whose id differs. -/
def removeFromQueue (id : String) (q : List QueuedItem) : List QueuedItem :=
  q.filter (fun item => !(item.id == id))

/-- `TransmissionQueueService.sendBatch`: fails fast when disconnected,
when no items match; on a successful single send removes every matched item
(via `removeFromQueue` per item), on a failed or throwing send leaves the
queue untouched. `sendResult` is the outcome of the one
`usbService.sendData(batchJson)` call (`.error` = thrown). -/
def sendBatch (connected : Bool) (sendResult : Except String Bool)
    (itemIds : List String) (q : List QueuedItem) : Bool × List QueuedItem :=
  if !connected then (false, q)
  else
    let items := q.filter (fun item => itemIds.contains item.id)
    if items.isEmpty then (false, q)
    else
      match sendResult with
      | .ok true => (true, items.foldl (fun acc item => removeFromQueue item.id acc) q)
      | .ok false => (false, q)
      | .error _ => (false, q)

theorem processQueueLoop_filter_none {tid : String} {mr : Nat} {send : QueuedItem → Bool} :
    ∀ q : List QueuedItem, q.filter (fun it => it.id == tid) = [] →
      (processQueueLoop mr send q).filter (fun it => it.id == tid) = [] := by
  intro q
  induction q with
  | nil => intro _; rfl
  | cons a rest ih =>
      intro h
      rw [List.filter_cons] at h
      by_cases ha : (a.id == tid) = true
      · rw [if_pos ha] at h
        exact absurd h (List.cons_ne_nil a _)
      · rw [Bool.not_eq_true] at ha
        rw [ha] at h
        simp only [Bool.false_eq_true, if_false] at h
        unfold processQueueLoop
        by_cases hskip : mr ≤ a.retryCount
        · rw [if_pos hskip, List.filter_cons, ha]
          simp only [Bool.false_eq_true, if_false]
          exact ih h
        · rw [if_neg hskip]
          by_cases hsend : send a = true
          · rw [if_pos hsend]
            exact ih h
          · rw [Bool.not_eq_true] at hsend
            rw [hsend]
            simp only [Bool.false_eq_true, if_false]
            rw [List.filter_cons]
            have : (({ a with retryCount := a.retryCount + 1 } : QueuedItem).id == tid)
                = false := ha
            rw [this]
            simp only [Bool.false_eq_true, if_false]
            exact ih h

theorem processQueueLoop_filter_fail {tid : String} {mr : Nat} {send : QueuedItem → Bool}
    (hsend : ∀ it : QueuedItem, it.id = tid → send it = false) :
    ∀ (q : List QueuedItem) (t : QueuedItem),
      q.filter (fun it => it.id == tid) = [t] → t.retryCount < mr →
      (processQueueLoop mr send q).filter (fun it => it.id == tid)
        = [{ t with retryCount := t.retryCount + 1 }] := by
  intro q
  induction q with
  | nil => intro t h _; exact absurd h.symm (List.cons_ne_nil t _)
  | cons a rest ih =>
      intro t h hrc
      rw [List.filter_cons] at h
      by_cases ha : (a.id == tid) = true
      · rw [if_pos ha] at h
        obtain ⟨hat, hrest⟩ := List.cons_eq_cons.mp h
        subst hat
        have haid : a.id = tid := by
          exact eq_of_beq ha
        unfold processQueueLoop
        rw [if_neg (by omega : ¬ mr ≤ a.retryCount)]
        rw [hsend a haid]
        simp only [Bool.false_eq_true, if_false, List.filter_cons]
        have hup : (({ a with retryCount := a.retryCount + 1 } : QueuedItem).id == tid)
            = true := ha
        rw [hup]
        simp only [if_true]
        rw [processQueueLoop_filter_none rest hrest]
      · rw [Bool.not_eq_true] at ha
        rw [ha] at h
        simp only [Bool.false_eq_true, if_false] at h
        unfold processQueueLoop
        by_cases hskip : mr ≤ a.retryCount
        · rw [if_pos hskip, List.filter_cons, ha]
          simp only [Bool.false_eq_true, if_false]
          exact ih t h hrc
        · rw [if_neg hskip]
          by_cases hs : send a = true
          · rw [if_pos hs]
            exact ih t h hrc
          · rw [Bool.not_eq_true] at hs
            rw [hs]
            simp only [Bool.false_eq_true, if_false, List.filter_cons]
            have : (({ a with retryCount := a.retryCount + 1 } : QueuedItem).id == tid)
                = false := ha
            rw [this]
            simp only [Bool.false_eq_true, if_false]
            exact ih t h hrc

theorem processQueueLoop_filter_skip {tid : String} {mr : Nat} {send : QueuedItem → Bool} :
    ∀ (q : List QueuedItem) (t : QueuedItem),
      q.filter (fun it => it.id == tid) = [t] → mr ≤ t.retryCount →
      (processQueueLoop mr send q).filter (fun it => it.id == tid) = [t] := by
  intro q
  induction q with
  | nil => intro t h _; exact absurd h.symm (List.cons_ne_nil t _)
  | cons a rest ih =>
      intro t h hrc
      rw [List.filter_cons] at h
      by_cases ha : (a.id == tid) = true
      · rw [if_pos ha] at h
        obtain ⟨hat, hrest⟩ := List.cons_eq_cons.mp h
        subst hat
        unfold processQueueLoop
        rw [if_pos hrc, List.filter_cons, ha]
        simp only [if_true]
        rw [processQueueLoop_filter_none rest hrest]
      · rw [Bool.not_eq_true] at ha
        rw [ha] at h
        simp only [Bool.false_eq_true, if_false] at h
        unfold processQueueLoop
        by_cases hskip : mr ≤ a.retryCount
        · rw [if_pos hskip, List.filter_cons, ha]
          simp only [Bool.false_eq_true, if_false]
          exact ih t h hrc
        · rw [if_neg hskip]
          by_cases hs : send a = true
          · rw [if_pos hs]
            exact ih t h hrc
          · rw [Bool.not_eq_true] at hs
            rw [hs]
            simp only [Bool.false_eq_true, if_false, List.filter_cons]
            have : (({ a with retryCount := a.retryCount + 1 } : QueuedItem).id == tid)
                = false := ha
            rw [this]
            simp only [Bool.false_eq_true, if_false]
            exact ih t h hrc

theorem processQueueLoop_filter_success {tid : String} {mr : Nat}
    {send : QueuedItem → Bool}
    (hsend : ∀ it : QueuedItem, it.id = tid → send it = true) :
    ∀ (q : List QueuedItem) (t : QueuedItem),
      q.filter (fun it => it.id == tid) = [t] → t.retryCount < mr →
      (processQueueLoop mr send q).filter (fun it => it.id == tid) = [] := by
  intro q
  induction q with
  | nil => intro t h _; exact absurd h.symm (List.cons_ne_nil t _)
  | cons a rest ih =>
      intro t h hrc
      rw [List.filter_cons] at h
      by_cases ha : (a.id == tid) = true
      · rw [if_pos ha] at h
        obtain ⟨hat, hrest⟩ := List.cons_eq_cons.mp h
        subst hat
        have haid : a.id = tid := eq_of_beq ha
        unfold processQueueLoop
        rw [if_neg (by omega : ¬ mr ≤ a.retryCount), hsend a haid]
        simp only [if_true]
        exact processQueueLoop_filter_none rest hrest
      · rw [Bool.not_eq_true] at ha
        rw [ha] at h
        simp only [Bool.false_eq_true, if_false] at h
        unfold processQueueLoop
        by_cases hskip : mr ≤ a.retryCount
        · rw [if_pos hskip, List.filter_cons, ha]
          simp only [Bool.false_eq_true, if_false]
          exact ih t h hrc
        · rw [if_neg hskip]
          by_cases hs : send a = true
          · rw [if_pos hs]
            exact ih t h hrc
          · rw [Bool.not_eq_true] at hs
            rw [hs]
            simp only [Bool.false_eq_true, if_false, List.filter_cons]
            have : (({ a with retryCount := a.retryCount + 1 } : QueuedItem).id == tid)
                = false := ha
            rw [this]
            simp only [Bool.false_eq_true, if_false]
            exact ih t h hrc

theorem processQueue_run {mr : Nat} {send : QueuedItem → Bool} {s : TQState}
    (hp : s.isProcessing = false) (hne : s.queue ≠ []) :
    processQueue mr true send s =
      { queue := processQueueLoop mr send s.queue, isProcessing := false } := by
  unfold processQueue
  rw [hp]
  have he : s.queue.isEmpty = false := by
    simp [List.isEmpty_iff, hne]
  rw [he]
  simp

theorem iterate_processQueue_fail {tid : String} {mr : Nat} {send : QueuedItem → Bool}
    (hsend : ∀ it : QueuedItem, it.id = tid → send it = false) :
    ∀ (N : Nat) (s : TQState) (t : QueuedItem),
      s.isProcessing = false →
      s.queue.filter (fun it => it.id == tid) = [t] →
      t.retryCount + N ≤ mr →
      ((processQueue mr true send)^[N] s).queue.filter (fun it => it.id == tid)
          = [{ t with retryCount := t.retryCount + N }] ∧
        ((processQueue mr true send)^[N] s).isProcessing = false := by
  intro N
  induction N with
  | zero =>
      intro s t hp hf _
      refine ⟨?_, hp⟩
      cases t with
      | mk i c f dts rc cp => simpa using hf
  | succ n ih =>
      intro s t hp hf hle
      rw [Function.iterate_succ_apply]
      have hne : s.queue ≠ [] := by
        intro he
        rw [he] at hf
        exact absurd hf.symm (List.cons_ne_nil t _)
      rw [processQueue_run hp hne]
      have h1 := processQueueLoop_filter_fail hsend s.queue t hf
        (show t.retryCount < mr by omega)
      have hb : ({ t with retryCount := t.retryCount + 1 } : QueuedItem).retryCount + n
          ≤ mr := by
        simp only []
        omega
      have h2 := ih { queue := processQueueLoop mr send s.queue, isProcessing := false }
        { t with retryCount := t.retryCount + 1 } rfl h1 hb
      refine ⟨?_, h2.2⟩
      rw [h2.1]
      cases t with
      | mk i c f dts rc cp =>
          simp only [List.cons.injEq, and_true]
          congr 1
          omega

theorem iterate_processQueue_skip {tid : String} {mr : Nat} {send : QueuedItem → Bool} :
    ∀ (M : Nat) (s : TQState) (t : QueuedItem),
      s.isProcessing = false →
      s.queue.filter (fun it => it.id == tid) = [t] →
      mr ≤ t.retryCount →
      ((processQueue mr true send)^[M] s).queue.filter (fun it => it.id == tid)
          = [t] ∧
        ((processQueue mr true send)^[M] s).isProcessing = false := by
  intro M
  induction M with
  | zero => intro s t hp hf _; exact ⟨hf, hp⟩
  | succ n ih =>
      intro s t hp hf hrc
      rw [Function.iterate_succ_apply]
      have hne : s.queue ≠ [] := by
        intro he
        rw [he] at hf
        exact absurd hf.symm (List.cons_ne_nil t _)
      rw [processQueue_run hp hne]
      exact ih { queue := processQueueLoop mr send s.queue, isProcessing := false }
        t rfl (processQueueLoop_filter_skip s.queue t hf hrc) hrc

/-- C3: after `addToQueue` of a fresh item and `N ≤ maxRetries` drain
passes in which the item's send fails, the queue holds exactly one entry
for that id, with `retryCount = N`; after `maxRetries` failing passes the
item is skipped by every further pass but never deleted; and a drain pass
whose send succeeds removes the item. -/
theorem c3_queue_retry (mr : Nat) (s : TQState) (tid : String) (ts : Int)
    (content : String) (fmt : BarcodeFormat) (cp : Bool)
    (send sendS : QueuedItem → Bool) (N : Nat) (q' : TQState) (item : QueuedItem)
    (hmr : 0 < mr)
    (hp : s.isProcessing = false)
    (hfresh : ∀ it ∈ s.queue, it.id ≠ tid)
    (hval : validateBarcode content.data fmt = true)
    (heq : addToQueue s tid ts content fmt cp = .ok (q', item))
    (hsend : ∀ it : QueuedItem, it.id = tid → send it = false)
    (hsendS : ∀ it : QueuedItem, it.id = tid → sendS it = true)
    (hN : N ≤ mr) :
    ((processQueue mr true send)^[N] q').queue.filter (fun it => it.id == tid)
        = [{ item with retryCount := N }] ∧
    (∀ M : Nat,
      ((processQueue mr true send)^[M]
          ((processQueue mr true send)^[mr] q')).queue.filter
            (fun it => it.id == tid)
        = [{ item with retryCount := mr }]) ∧
    (processQueue mr true sendS q').queue.filter (fun it => it.id == tid) = [] := by
  unfold addToQueue at heq
  rw [hval] at heq
  simp only [Bool.true_eq_false, if_false, Except.ok.injEq, Prod.mk.injEq] at heq
  obtain ⟨hq', hitem⟩ := heq
  have hqueue : q'.queue = s.queue ++ [item] := by
    rw [← hq', ← hitem]
  have hqp : q'.isProcessing = false := by
    rw [← hq']
    exact hp
  have hitemid : item.id = tid := by rw [← hitem]
  have hitemrc : item.retryCount = 0 := by rw [← hitem]
  have hfilter : q'.queue.filter (fun it => it.id == tid) = [item] := by
    rw [hqueue, List.filter_append]
    have h1 : s.queue.filter (fun it => it.id == tid) = [] := by
      rw [List.filter_eq_nil_iff]
      intro it hit
      simpa using hfresh it hit
    have h2 : List.filter (fun it => it.id == tid) [item] = [item] := by
      simp [hitemid]
    rw [h1, h2, List.nil_append]
  refine ⟨?_, ?_, ?_⟩
  · have h := iterate_processQueue_fail hsend N q' item hqp hfilter
      (show item.retryCount + N ≤ mr by omega)
    rw [h.1, hitemrc]
    simp
  · intro M
    have h := iterate_processQueue_fail hsend mr q' item hqp hfilter
      (show item.retryCount + mr ≤ mr by omega)
    have hfil2 : ((processQueue mr true send)^[mr] q').queue.filter
        (fun it => it.id == tid) = [{ item with retryCount := mr }] := by
      rw [h.1, hitemrc]
      simp
    have h2 : ((processQueue mr true send)^[M]
          ((processQueue mr true send)^[mr] q')).queue.filter
            (fun it => it.id == tid) = [{ item with retryCount := mr }] ∧
        ((processQueue mr true send)^[M]
          ((processQueue mr true send)^[mr] q')).isProcessing = false :=
      iterate_processQueue_skip M ((processQueue mr true send)^[mr] q')
        { item with retryCount := mr } h.2 hfil2
        (show mr ≤ ({ item with retryCount := mr } : QueuedItem).retryCount by simp)
    exact h2.1
  · have hne : q'.queue ≠ [] := by
      rw [hqueue]
      simp
    rw [processQueue_run hqp hne]
    exact processQueueLoop_filter_success hsendS q'.queue item hfilter
      (show item.retryCount < mr by omega)

/-- Witness for C3: a concrete valid EAN-8 item, two failing drain passes,
then the skip behaviour and the success behaviour, via `c3_queue_retry`. -/
theorem c3_queue_retry_witness :
    ((processQueue 3 true (fun _ => false))^[2]
        ⟨[⟨"a", "12345670", .EAN8, 0, 0, false⟩], false⟩).queue.filter
          (fun it => it.id == "a")
        = [⟨"a", "12345670", .EAN8, 0, 2, false⟩] ∧
    (∀ M : Nat,
      ((processQueue 3 true (fun _ => false))^[M]
          ((processQueue 3 true (fun _ => false))^[3]
            ⟨[⟨"a", "12345670", .EAN8, 0, 0, false⟩], false⟩)).queue.filter
            (fun it => it.id == "a")
        = [⟨"a", "12345670", .EAN8, 0, 3, false⟩]) ∧
    (processQueue 3 true (fun _ => true)
        ⟨[⟨"a", "12345670", .EAN8, 0, 0, false⟩], false⟩).queue.filter
          (fun it => it.id == "a") = [] := by
  have h := c3_queue_retry 3 ⟨[], false⟩ "a" 0 "12345670" .EAN8 false
    (fun _ => false) (fun _ => true) 2
    ⟨[⟨"a", "12345670", .EAN8, 0, 0, false⟩], false⟩
    ⟨"a", "12345670", .EAN8, 0, 0, false⟩
    (by norm_num) rfl (by intro it hit; simp at hit) (by decide) rfl
    (fun _ _ => rfl) (fun _ _ => rfl) (by norm_num)
  exact h

theorem foldl_remove_eq_filter :
    ∀ (L : List QueuedItem) (q : List QueuedItem),
      L.foldl (fun acc item => removeFromQueue item.id acc) q
        = q.filter (fun it => !((L.map QueuedItem.id).contains it.id)) := by
  intro L
  induction L with
  | nil => intro q; simp
  | cons a L ih =>
      intro q
      rw [List.foldl_cons, ih (removeFromQueue a.id q)]
      unfold removeFromQueue
      rw [List.filter_filter]
      apply List.filter_congr
      intro it _
      simp only [List.map_cons, List.contains_cons, Bool.not_or]
      rw [Bool.and_comm]

theorem mem_filter_contains_eq (itemIds : List String) (q : List QueuedItem)
    (it : QueuedItem) (hit : it ∈ q) :
    ((q.filter (fun x => itemIds.contains x.id)).map QueuedItem.id).contains it.id
      = itemIds.contains it.id := by
  by_cases hc : itemIds.contains it.id = true
  · rw [hc]
    have hmem : it ∈ q.filter (fun x => itemIds.contains x.id) :=
      List.mem_filter.mpr ⟨hit, hc⟩
    have : it.id ∈ (q.filter (fun x => itemIds.contains x.id)).map QueuedItem.id :=
      List.mem_map.mpr ⟨it, hmem, rfl⟩
    simpa [List.elem_iff] using this
  · rw [Bool.not_eq_true] at hc
    rw [hc]
    rw [Bool.eq_false_iff]
    intro habs
    have : it.id ∈ (q.filter (fun x => itemIds.contains x.id)).map QueuedItem.id := by
      simpa [List.elem_iff] using habs
    obtain ⟨x, hx, hxid⟩ := List.mem_map.mp this
    obtain ⟨_, hxc⟩ := List.mem_filter.mp hx
    rw [hxid] at hxc
    rw [hc] at hxc
    exact Bool.false_ne_true hxc

/-- C4: `sendBatch` is atomic with respect to the queue: when the
connection is not ready or the one batch send fails or throws, the queue is
returned exactly as it was; when the batch send succeeds (and some item
matched), exactly the items whose ids were matched into the batch are
removed and every other item is kept. -/
theorem c4_sendBatch_atomic (connected : Bool) (sendResult : Except String Bool)
    (itemIds : List String) (q : List QueuedItem) (e : String) :
    (connected = false → sendBatch connected sendResult itemIds q = (false, q)) ∧
    (sendResult = .ok false → (sendBatch connected sendResult itemIds q).2 = q) ∧
    (sendResult = .error e → (sendBatch connected sendResult itemIds q).2 = q) ∧
    (sendResult = .ok true → connected = true →
      q.filter (fun it => itemIds.contains it.id) ≠ [] →
      sendBatch connected sendResult itemIds q =
        (true, q.filter (fun it => !(itemIds.contains it.id)))) := by
  refine ⟨?_, ?_, ?_, ?_⟩
  · intro hc
    subst hc
    rfl
  · intro hr
    subst hr
    unfold sendBatch
    by_cases hc : connected = false
    · rw [hc]
      rfl
    · rw [Bool.not_eq_false] at hc
      subst hc
      simp only [Bool.not_true, Bool.false_eq_true, if_false]
      by_cases he : (q.filter (fun item => itemIds.contains item.id)).isEmpty = true
      · rw [if_pos he]
      · rw [if_neg he]
  · intro hr
    subst hr
    unfold sendBatch
    by_cases hc : connected = false
    · rw [hc]
      rfl
    · rw [Bool.not_eq_false] at hc
      subst hc
      simp only [Bool.not_true, Bool.false_eq_true, if_false]
      by_cases he : (q.filter (fun item => itemIds.contains item.id)).isEmpty = true
      · rw [if_pos he]
      · rw [if_neg he]
  · intro hr hc hne
    subst hr hc
    unfold sendBatch
    simp only [Bool.not_true, Bool.false_eq_true, if_false]
    have he : (q.filter (fun item => itemIds.contains item.id)).isEmpty = false := by
      rw [Bool.eq_false_iff]
      intro h
      exact hne (List.isEmpty_iff.mp h)
    rw [he]
    simp only [Bool.false_eq_true, if_false]
    rw [foldl_remove_eq_filter]
    have : q.filter
          (fun it => !(((q.filter (fun x => itemIds.contains x.id)).map
            QueuedItem.id).contains it.id))
        = q.filter (fun it => !(itemIds.contains it.id)) := by
      apply List.filter_congr
      intro it hit
      rw [mem_filter_contains_eq itemIds q it hit]
    rw [this]

/-- Witness for C4 on a two-item queue, batching the first id. -/
theorem c4_sendBatch_atomic_witness :
    sendBatch false (.ok true) ["a"]
        [⟨"a", "x", .QR, 0, 0, false⟩, ⟨"b", "y", .QR, 0, 0, false⟩]
      = (false, [⟨"a", "x", .QR, 0, 0, false⟩, ⟨"b", "y", .QR, 0, 0, false⟩]) ∧
    (sendBatch true (.ok false) ["a"]
        [⟨"a", "x", .QR, 0, 0, false⟩, ⟨"b", "y", .QR, 0, 0, false⟩]).2
      = [⟨"a", "x", .QR, 0, 0, false⟩, ⟨"b", "y", .QR, 0, 0, false⟩] ∧
    (sendBatch true (.error "err") ["a"]
        [⟨"a", "x", .QR, 0, 0, false⟩, ⟨"b", "y", .QR, 0, 0, false⟩]).2
      = [⟨"a", "x", .QR, 0, 0, false⟩, ⟨"b", "y", .QR, 0, 0, false⟩] ∧
    sendBatch true (.ok true) ["a"]
        [⟨"a", "x", .QR, 0, 0, false⟩, ⟨"b", "y", .QR, 0, 0, false⟩]
      = (true, [⟨"b", "y", .QR, 0, 0, false⟩]) := by
  refine ⟨?_, ?_, ?_, ?_⟩
  · exact (c4_sendBatch_atomic false (.ok true) ["a"] _ "err").1 rfl
  · exact (c4_sendBatch_atomic true (.ok false) ["a"] _ "err").2.1 rfl
  · exact (c4_sendBatch_atomic true (.error "err") ["a"] _ "err").2.2.1 rfl
  · have h := (c4_sendBatch_atomic true (.ok true) ["a"]
      [⟨"a", "x", .QR, 0, 0, false⟩, ⟨"b", "y", .QR, 0, 0, false⟩] "err").2.2.2
      rfl rfl (by decide)
    exact h.trans (by decide)

/-! ## USBCommunicationProtocol: pending-request table -/

/-- `messageTimeout = 30000` ms. -/
def messageTimeout : Int := 30000

/-- The `setInterval(() => this.checkTimeouts(), 5000)` sweep period. -/
def sweepCheckInterval : Int := 5000

/-- The `pendingMessages` map is keyed by message id and stores the
registration timestamp (the resolve/reject continuations carry no state
relevant to the claims). Keys are unique (it models a JS `Map`). -/
abbrev PendingTable := List (String × Int)

/-- `Map.get` on the pending table. -/
def lookupPending (id : String) : PendingTable → Option Int
  | [] => none
  | e :: rest => if e.1 == id then some e.2 else lookupPending id rest

/-- `Map.set` on the pending table (replace the existing key or append). -/
def setPending (id : String) (ts : Int) : PendingTable → PendingTable
  | [] => [(id, ts)]
  | e :: rest => if e.1 == id then (id, ts) :: rest else e :: setPending id ts rest

/-- `Map.delete` on the pending table. -/
def deletePending (id : String) (table : PendingTable) : PendingTable :=
  table.filter (fun e => !(e.1 == id))

/-- `USBCommunicationProtocol.checkTimeouts` run at time `now`: entries
whose elapsed time strictly exceeds `messageTimeout` are collected, each is
rejected with a timeout error and deleted. Result: the remaining table and
the rejected ids. -/
def checkTimeouts (now : Int) (table : PendingTable) :
    PendingTable × List String :=
  (table.filter (fun e => !(decide (messageTimeout < now - e.2))),
   (table.filter (fun e => decide (messageTimeout < now - e.2))).map Prod.fst)

theorem filter_not_eq_length {α : Type} [BEq α] [LawfulBEq α] (x : α) :
    ∀ l : List α, (l.filter (fun e => !(e == x))).length + l.count x = l.length := by
  intro l
  induction l with
  | nil => rfl
  | cons a rest ih =>
      rw [List.filter_cons, List.count_cons]
      by_cases ha : a = x
      · subst ha
        have h1 : (a == a) = true := beq_self_eq_true a
        rw [h1]
        simp only [Bool.not_true, Bool.false_eq_true, if_false, if_true, List.length_cons]
        omega
      · have h1 : (a == x) = false := beq_eq_false_iff_ne.mpr ha
        rw [h1]
        simp only [Bool.not_false, if_true, List.length_cons, Bool.false_eq_true, if_false]
        omega

/-- C5: a pending request created at time `T` and still in the table is
rejected and removed by any sweep at a time `s` past `T + timeout`; when it
is the only overdue entry (appearing once) the table shrinks by exactly
one; sweeps recur every `sweepCheckInterval`, so some sweep tick lands in
`(T + timeout, T + timeout + interval]` — no entry outlives timeout plus
one sweep interval; the timeout is 30 and the sweep interval 5 units of
1000 ms. -/
theorem c5_pending_timeout_sweep (table : PendingTable) (tid : String)
    (T s t0 : Int)
    (hmem : (tid, T) ∈ table)
    (hs : T + messageTimeout < s)
    (ht0 : t0 ≤ T + messageTimeout) :
    ((tid, T) ∉ (checkTimeouts s table).1) ∧
    (tid ∈ (checkTimeouts s table).2) ∧
    ((∀ e ∈ table, messageTimeout < s - e.2 → e = (tid, T)) →
      table.count (tid, T) = 1 →
      (checkTimeouts s table).1.length + 1 = table.length) ∧
    (∃ k : Nat, T + messageTimeout < t0 + (k : Int) * sweepCheckInterval ∧
      t0 + (k : Int) * sweepCheckInterval
        ≤ T + messageTimeout + sweepCheckInterval) ∧
    messageTimeout = 30 * 1000 ∧ sweepCheckInterval = 5 * 1000 := by
  have hover : decide (messageTimeout < s - T) = true := by
    simp only [decide_eq_true_eq]
    omega
  refine ⟨?_, ?_, ?_, ?_, rfl, rfl⟩
  · intro habs
    have h := (List.mem_filter.mp habs).2
    rw [hover] at h
    exact Bool.false_ne_true h
  · unfold checkTimeouts
    apply List.mem_map.mpr
    exact ⟨(tid, T), List.mem_filter.mpr ⟨hmem, hover⟩, rfl⟩
  · intro honly hcount
    have heq : table.filter (fun e => !(decide (messageTimeout < s - e.2)))
        = table.filter (fun e => !(e == (tid, T))) := by
      apply List.filter_congr
      intro e he
      by_cases hcase : e = (tid, T)
      · subst hcase
        rw [hover]
        simp
      · have h1 : decide (messageTimeout < s - e.2) = false := by
          rw [decide_eq_false_iff_not]
          intro hlt
          exact hcase (honly e he hlt)
        rw [h1]
        simp [hcase]
    show (table.filter fun e => !(decide (messageTimeout < s - e.2))).length + 1
        = table.length
    rw [heq, ← hcount]
    exact filter_not_eq_length (tid, T) table
  · have hd : (0 : Int) ≤ T + messageTimeout - t0 := by omega
    set d : Nat := (T + messageTimeout - t0).toNat with hdef
    have hcast : (d : Int) = T + messageTimeout - t0 := Int.toNat_of_nonneg hd
    refine ⟨d / 5000 + 1, ?_, ?_⟩
    · have h1 := Nat.div_add_mod d 5000
      have h2 := Nat.mod_lt d (show 0 < 5000 by norm_num)
      show T + messageTimeout < t0 + ((d / 5000 + 1 : Nat) : Int) * sweepCheckInterval
      unfold sweepCheckInterval
      push_cast
      omega
    · have h1 := Nat.div_add_mod d 5000
      show t0 + ((d / 5000 + 1 : Nat) : Int) * sweepCheckInterval
          ≤ T + messageTimeout + sweepCheckInterval
      unfold sweepCheckInterval
      push_cast
      omega

/-- Witness for C5: one overdue entry, swept at `s = 30001` past its
deadline, with sweep phase `t0 = 0`. -/
theorem c5_pending_timeout_sweep_witness :
    ((("m", (0 : Int)) ∉ (checkTimeouts 30001 [("m", 0)]).1) ∧
    ("m" ∈ (checkTimeouts 30001 [("m", 0)]).2) ∧
    ((∀ e ∈ [(("m" : String), (0 : Int))], messageTimeout < 30001 - e.2 →
        e = ("m", 0)) →
      List.count (("m", 0) : String × Int) [("m", 0)] = 1 →
      (checkTimeouts 30001 [("m", 0)]).1.length + 1
        = ([(("m" : String), (0 : Int))] : PendingTable).length) ∧
    (∃ k : Nat, 0 + messageTimeout < 0 + (k : Int) * sweepCheckInterval ∧
      0 + (k : Int) * sweepCheckInterval
        ≤ 0 + messageTimeout + sweepCheckInterval) ∧
    messageTimeout = 30 * 1000 ∧ sweepCheckInterval = 5 * 1000) :=
  c5_pending_timeout_sweep [("m", 0)] "m" 0 30001 0 (by simp)
    (by norm_num [messageTimeout]) (by norm_num [messageTimeout])

/-! ## USBCommunicationProtocol: sendWithAcknowledgment -/

/-- Outcome of the future returned by `sendWithAcknowledgment` at the end
of the synchronous send attempt. -/
inductive AckOutcome where
  | pending
  | rejected (err : String)
deriving DecidableEq, Repr

/-- `USBCommunicationProtocol.sendWithAcknowledgment`: stores a pending
entry keyed by the message id (timestamp `now`), then runs the injected
send function; if it resolves `false` the entry is deleted and the future
rejected with "Failed to send message"; if it throws, the entry is deleted
and the future rejected with the thrown error; if it resolves `true` the
entry stays pending (to be resolved by a later Ack/Nack or timeout). -/
def sendWithAcknowledgment (msgId : String) (now : Int)
    (sendResult : Except String Bool) (table : PendingTable) :
    PendingTable × AckOutcome :=
  let table1 := setPending msgId now table
  match sendResult with
  | .ok true => (table1, .pending)
  | .ok false => (deletePending msgId table1, .rejected "Failed to send message")
  | .error e => (deletePending msgId table1, .rejected e)

theorem lookupPending_eq_none_iff (id : String) :
    ∀ table : PendingTable,
      lookupPending id table = none ↔ ∀ e ∈ table, (e.1 == id) = false := by
  intro table
  induction table with
  | nil => simp [lookupPending]
  | cons e rest ih =>
      unfold lookupPending
      by_cases he : (e.1 == id) = true
      · rw [he]
        simp only [if_true]
        constructor
        · intro h
          exact absurd h (by simp)
        · intro h
          exact absurd (h e (by simp)) (by simp [he])
      · rw [Bool.not_eq_true] at he
        rw [he]
        simp only [Bool.false_eq_true, if_false]
        rw [ih]
        constructor
        · intro h e' he'
          rcases List.mem_cons.mp he' with h1 | h1
          · rw [h1]; exact he
          · exact h e' h1
        · intro h e' he'
          exact h e' (List.mem_cons_of_mem e he')

theorem lookup_deletePending_none (id : String) (table : PendingTable) :
    lookupPending id (deletePending id table) = none := by
  rw [lookupPending_eq_none_iff]
  intro e he
  have := (List.mem_filter.mp he).2
  rwa [Bool.not_eq_true'] at this

theorem deletePending_setPending (id : String) (ts : Int) :
    ∀ table : PendingTable,
      deletePending id (setPending id ts table) = deletePending id table := by
  intro table
  induction table with
  | nil => simp [setPending, deletePending]
  | cons e rest ih =>
      unfold setPending
      by_cases he : (e.1 == id) = true
      · rw [he]
        simp only [if_true]
        unfold deletePending
        rw [List.filter_cons, List.filter_cons]
        have h1 : (!(((id, ts) : String × Int).1 == id)) = false := by simp
        rw [h1]
        have h2 : (!(e.1 == id)) = false := by simp [he]
        rw [h2]
        simp only [Bool.false_eq_true, if_false]
      · rw [Bool.not_eq_true] at he
        rw [he]
        simp only [Bool.false_eq_true, if_false]
        unfold deletePending at ih ⊢
        rw [List.filter_cons, List.filter_cons, he]
        simp only [Bool.not_false, if_true]
        rw [ih]

theorem deletePending_fresh (id : String) (table : PendingTable)
    (h : lookupPending id table = none) : deletePending id table = table := by
  apply List.filter_eq_self.mpr
  intro e he
  rw [(lookupPending_eq_none_iff id table).mp h e he]
  rfl

/-- C10: when the injected send function resolves `false` or throws, the
pending entry registered for the message id is deleted again and the
future is rejected; in particular, if the id was fresh (the invariant for
generated message ids), the table is returned exactly as it was before the
call. -/
theorem c10_sendWithAck_no_dangling (msgId : String) (now : Int)
    (sendResult : Except String Bool) (table : PendingTable)
    (hfail : sendResult = .ok false ∨ ∃ e, sendResult = .error e) :
    lookupPending msgId (sendWithAcknowledgment msgId now sendResult table).1 = none ∧
    (∃ err, (sendWithAcknowledgment msgId now sendResult table).2 = .rejected err) ∧
    (lookupPending msgId table = none →
      (sendWithAcknowledgment msgId now sendResult table).1 = table) := by
  have hstep : (sendWithAcknowledgment msgId now sendResult table).1
      = deletePending msgId (setPending msgId now table) ∧
      ∃ err, (sendWithAcknowledgment msgId now sendResult table).2
        = .rejected err := by
    rcases hfail with h | ⟨e, h⟩ <;> subst h
    · exact ⟨rfl, "Failed to send message", rfl⟩
    · exact ⟨rfl, e, rfl⟩
  refine ⟨?_, hstep.2, ?_⟩
  · rw [hstep.1, deletePending_setPending]
    exact lookup_deletePending_none msgId table
  · intro hfresh
    rw [hstep.1, deletePending_setPending]
    exact deletePending_fresh msgId table hfresh

/-- Witness for C10: a failed send of message id `"m"` against a table
holding an unrelated entry. -/
theorem c10_sendWithAck_no_dangling_witness :
    lookupPending "m" (sendWithAcknowledgment "m" 7 (.ok false) [("x", 1)]).1
      = none ∧
    (∃ err, (sendWithAcknowledgment "m" 7 (.ok false) [("x", 1)]).2
      = .rejected err) ∧
    (lookupPending "m" [(("x" : String), (1 : Int))] = none →
      (sendWithAcknowledgment "m" 7 (.ok false) [("x", 1)]).1 = [("x", 1)]) :=
  c10_sendWithAck_no_dangling "m" 7 (.ok false) [("x", 1)] (Or.inl rfl)

/-! ## JSON values and `JSON.parse`, for processIncomingMessage -/

/-- Parsed JSON values (the result of `JSON.parse`). Number values keep
their source lexeme: no claim inspects numeric magnitudes. -/
inductive JValue where
  | null
  | bool (b : Bool)
  | num (lexeme : String)
  | str (s : String)
  | arr (elems : List JValue)
  | obj (fields : List (String × JValue))
deriving Repr

/-- JSON whitespace. -/
def jsonWs (c : Char) : Bool :=
  ((c = ' ' || c = '\t') || (c = '\n' || c = '\r'))

/-- Skip JSON whitespace. -/
def skipWs (l : List Char) : List Char := l.dropWhile jsonWs

/-- Hex digit test (for `\u` escapes). -/
def isHexDigitChar (c : Char) : Bool :=
  (c.isDigit || ('a' ≤ c && c ≤ 'f')) || ('A' ≤ c && c ≤ 'F')

/-- Value of a hex digit. -/
def hexVal (c : Char) : Nat :=
  if c.isDigit then c.toNat - 48
  else if 'a' ≤ c && c ≤ 'f' then c.toNat - 87
  else c.toNat - 55

/-- Parse the body of a JSON string (after the opening quote), handling
the standard escapes; returns the decoded characters and the input after
the closing quote. -/
def parseStringBody : Nat → List Char → Option (List Char × List Char)
  | 0, _ => none
  | _ + 1, [] => none
  | fuel + 1, c :: rest =>
      if c = '"' then some ([], rest)
      else if c = '\\' then
        match rest with
        | [] => none
        | e :: rest2 =>
            if e = 'u' then
              match rest2 with
              | h1 :: h2 :: h3 :: h4 :: rest3 =>
                  if ((isHexDigitChar h1 && isHexDigitChar h2)
                      && (isHexDigitChar h3 && isHexDigitChar h4)) then
                    match parseStringBody fuel rest3 with
                    | some (cs, r) =>
                        some (Char.ofNat
                          (((hexVal h1 * 16 + hexVal h2) * 16 + hexVal h3) * 16
                            + hexVal h4) :: cs, r)
                    | none => none
                  else none
              | _ => none
            else
              let mapped : Option Char :=
                if e = '"' then some '"'
                else if e = '\\' then some '\\'
                else if e = '/' then some '/'
                else if e = 'b' then some '\x08'
                else if e = 'f' then some '\x0c'
                else if e = 'n' then some '\n'
                else if e = 'r' then some '\x0d'
                else if e = 't' then some '\t'
                else none
              match mapped with
              | none => none
              | some m =>
                  match parseStringBody fuel rest2 with
                  | some (cs, r) => some (m :: cs, r)
                  | none => none
      else
        match parseStringBody fuel rest with
        | some (cs, r) => some (c :: cs, r)
        | none => none

/-- Parse an optional JSON fraction part. -/
def parseFrac (l : List Char) : Option (List Char × List Char) :=
  match l with
  | '.' :: r =>
      match r.span Char.isDigit with
      | ([], _) => none
      | (ds, rest) => some ('.' :: ds, rest)
  | _ => some ([], l)

/-- Parse an optional JSON exponent part. -/
def parseExp (l : List Char) : Option (List Char × List Char) :=
  match l with
  | c :: r =>
      if c = 'e' || c = 'E' then
        let rest2 : List Char × List Char :=
          match r with
          | s :: r2 => if s = '+' || s = '-' then ([s], r2) else ([], r)
          | [] => ([], [])
        match (rest2.2).span Char.isDigit with
        | ([], _) => none
        | (ds, rest) => some (c :: (rest2.1 ++ ds), rest)
      else some ([], l)
  | [] => some ([], [])

/-- Parse a JSON number (grammar `-? digits frac? exp?`), returning its
lexeme. -/
def parseNumber (l : List Char) : Option (List Char × List Char) :=
  let start : List Char × List Char :=
    match l with
    | '-' :: r => (['-'], r)
    | _ => ([], l)
  match (start.2).span Char.isDigit with
  | ([], _) => none
  | (intPart, l2) =>
      match parseFrac l2 with
      | none => none
      | some (fracPart, l3) =>
          match parseExp l3 with
          | none => none
          | some (expPart, l4) =>
              some (start.1 ++ intPart ++ fracPart ++ expPart, l4)

mutual

/-- Parse one JSON value. Fuel decreases on every recursive call; the
caller supplies enough fuel for any input of a given length. -/
def parseValue : Nat → List Char → Option (JValue × List Char)
  | 0, _ => none
  | fuel + 1, l =>
      match skipWs l with
      | 'n' :: 'u' :: 'l' :: 'l' :: rest => some (.null, rest)
      | 't' :: 'r' :: 'u' :: 'e' :: rest => some (.bool true, rest)
      | 'f' :: 'a' :: 'l' :: 's' :: 'e' :: rest => some (.bool false, rest)
      | '"' :: rest =>
          match parseStringBody (fuel + 1) rest with
          | some (cs, r) => some (.str (String.mk cs), r)
          | none => none
      | '[' :: rest =>
          match parseArrayRest fuel rest with
          | some (vs, r) => some (.arr vs, r)
          | none => none
      | '\x7b' :: rest =>
          match parseObjectRest fuel rest with
          | some (fs, r) => some (.obj fs, r)
          | none => none
      | c :: rest =>
          if c.isDigit || c = '-' then
            match parseNumber (c :: rest) with
            | some (lex, r) => some (.num (String.mk lex), r)
            | none => none
          else none
      | [] => none

/-- Parse array elements after `[` (allows an immediately closing `]`). -/
def parseArrayRest : Nat → List Char → Option (List JValue × List Char)
  | 0, _ => none
  | fuel + 1, l =>
      match skipWs l with
      | ']' :: r => some ([], r)
      | l' =>
          match parseValue fuel l' with
          | none => none
          | some (v, r) =>
              match parseArrayTail fuel r with
              | none => none
              | some (vs, r2) => some (v :: vs, r2)

/-- Parse `, value`* `]` after the first array element. -/
def parseArrayTail : Nat → List Char → Option (List JValue × List Char)
  | 0, _ => none
  | fuel + 1, l =>
      match skipWs l with
      | ']' :: r => some ([], r)
      | ',' :: r =>
          match parseValue fuel r with
          | none => none
          | some (v, r2) =>
              match parseArrayTail fuel r2 with
              | none => none
              | some (vs, r3) => some (v :: vs, r3)
      | _ => none

/-- Parse object members after an opening brace (allows an immediately
closing brace). -/
def parseObjectRest : Nat → List Char → Option (List (String × JValue) × List Char)
  | 0, _ => none
  | fuel + 1, l =>
      match skipWs l with
      | '\x7d' :: r => some ([], r)
      | '"' :: r =>
          match parseStringBody (fuel + 1) r with
          | none => none
          | some (k, r2) =>
              match skipWs r2 with
              | ':' :: r3 =>
                  match parseValue fuel r3 with
                  | none => none
                  | some (v, r4) =>
                      match parseObjectTail fuel r4 with
                      | none => none
                      | some (fs, r5) => some ((String.mk k, v) :: fs, r5)
              | _ => none
      | _ => none

/-- Parse `, "key": value`* and the closing brace after the first object
member. -/
def parseObjectTail : Nat → List Char → Option (List (String × JValue) × List Char)
  | 0, _ => none
  | fuel + 1, l =>
      match skipWs l with
      | '\x7d' :: r => some ([], r)
      | ',' :: r =>
          match skipWs r with
          | '"' :: r2 =>
              match parseStringBody (fuel + 1) r2 with
              | none => none
              | some (k, r3) =>
                  match skipWs r3 with
                  | ':' :: r4 =>
                      match parseValue fuel r4 with
                      | none => none
                      | some (v, r5) =>
                          match parseObjectTail fuel r5 with
                          | none => none
                          | some (fs, r6) => some ((String.mk k, v) :: fs, r6)
                  | _ => none
          | _ => none
      | _ => none

end

/-- `JSON.parse`: parse one value and require only whitespace to follow;
`none` models a thrown `SyntaxError`. -/
def parseJson (raw : String) : Option JValue :=
  match parseValue (2 * raw.data.length + 2) raw.data with
  | some (v, rest) => if (skipWs rest).isEmpty then some v else none
  | none => none

/-! ## USBCommunicationProtocol: processIncomingMessage -/

/-- First-match association lookup over object fields. -/
def lookupField (k : String) : List (String × JValue) → Option JValue
  | [] => none
  | f :: rest => if f.1 == k then some f.2 else lookupField k rest

/-- JS property access `v[k]` on a parsed JSON value: `null` throws a
`TypeError` (`.error`); an object yields its field, or `undefined`
(`none`) when absent — later duplicate keys win, as in `JSON.parse`;
any other value yields `undefined`. -/
def jsField : JValue → String → Except Unit (Option JValue)
  | .null, _ => .error ()
  | .obj fields, k => .ok (lookupField k fields.reverse)
  | _, _ => .ok none

/-- JS property access on a possibly-`undefined` value: accessing a
property of `undefined` throws. -/
def jsFieldO : Option JValue → String → Except Unit (Option JValue)
  | none, _ => .error ()
  | some v, k => jsField v k

/-- JS strict equality of a property value against a string literal. -/
def jsEqStr : Option JValue → String → Bool
  | some (.str s), t => s == t
  | _, _ => false

/-- The protocol-service state read and written by
`processIncomingMessage` (`messageHandlers` is omitted: handlers are
external callbacks, each dispatched inside its own try/catch, and they
cannot touch the private fields; the logger is effect-free on state). -/
structure ProtState where
  pendingMessages : PendingTable
  isHandshakeComplete : Bool
  sessionId : Option JValue
  deviceInfo : Option JValue
deriving Repr

/-- The body of `processIncomingMessage` after a successful `JSON.parse`,
with explicit exception flow: the returned `Option Unit` is the exception
escaping to the outer catch (state mutations made before a throw persist,
as with JS `this` mutation). Order as in the source: Ack/Nack correlation
(resolving/rejecting and deleting a matched entry, silently dropping an
unmatched one), then the `HANDSHAKE_RESPONSE` bookkeeping, then handler
dispatch (each handler wrapped in its own try/catch, no state effect). -/
def processParsedMessage (s : ProtState) (v : JValue) : ProtState × Option Unit :=
  match jsField v "type" with
  | .error _ => (s, some ())
  | .ok tyV =>
    if jsEqStr tyV "ACK" || jsEqStr tyV "NACK" then
      match jsField v "payload" with
      | .error _ => (s, some ())
      | .ok payloadV =>
        match jsFieldO payloadV "originalMessageId" with
        | .error _ => (s, some ())
        | .ok origIdV =>
          match origIdV with
          | some (.str origId) =>
            match lookupPending origId s.pendingMessages with
            | some _ =>
                ({ s with pendingMessages := deletePending origId s.pendingMessages },
                  none)
            | none => (s, none)
          | _ => (s, none)
    else if jsEqStr tyV "HANDSHAKE_RESPONSE" then
      let s1 := { s with isHandshakeComplete := true }
      match jsField v "payload" with
      | .error _ => (s1, some ())
      | .ok payloadV =>
        match jsFieldO payloadV "sessionId" with
        | .error _ => (s1, some ())
        | .ok sid =>
          let s2 := { s1 with sessionId := sid }
          match jsFieldO payloadV "deviceInfo" with
          | .error _ => (s2, some ())
          | .ok dev => ({ s2 with deviceInfo := dev }, none)
    else (s, none)

/-- `processIncomingMessage` with the outer try/catch made explicit: the
second component is the exception escaping the whole method (the catch
swallows both `JSON.parse` failures and body throws, so it is always
`none`). -/
def processIncomingMessageE (s : ProtState) (raw : String) : ProtState × Option Unit :=
  match parseJson raw with
  | none => (s, none)
  | some v =>
      match processParsedMessage s v with
      | (s', some _) => (s', none)
      | (s', none) => (s', none)

/-- `processIncomingMessage` as the callers see it. -/
def processIncomingMessage (s : ProtState) (raw : String) : ProtState :=
  (processIncomingMessageE s raw).1

/-- Whether the parsed message's `type` is `ACK` or `NACK`, exactly as the
code tests it. -/
def typeIsAckNack (v : JValue) : Bool :=
  match jsField v "type" with
  | .ok tyV => jsEqStr tyV "ACK" || jsEqStr tyV "NACK"
  | .error _ => false

/-- The correlation id the Ack/Nack handling extracts, when that
extraction neither throws nor yields a non-string. -/
def ackOriginalId (v : JValue) : Option String :=
  match jsField v "payload" with
  | .error _ => none
  | .ok payloadV =>
    match jsFieldO payloadV "originalMessageId" with
    | .ok (some (.str oid)) => some oid
    | _ => none

theorem processParsedMessage_table (s : ProtState) (v : JValue) :
    (processParsedMessage s v).1.pendingMessages = s.pendingMessages ∨
    (typeIsAckNack v = true ∧ ∃ oid, ackOriginalId v = some oid ∧
      lookupPending oid s.pendingMessages ≠ none) := by
  unfold processParsedMessage
  cases hty : jsField v "type" with
  | error e => left; rfl
  | ok tyV =>
      dsimp only
      by_cases hack : (jsEqStr tyV "ACK" || jsEqStr tyV "NACK") = true
      · rw [hack]
        simp only [if_true]
        cases hp : jsField v "payload" with
        | error e => left; rfl
        | ok payloadV =>
            dsimp only
            cases ho : jsFieldO payloadV "originalMessageId" with
            | error e => left; rfl
            | ok origIdV =>
                dsimp only
                match origIdV with
                | none => left; rfl
                | some .null => left; rfl
                | some (.bool b) => left; rfl
                | some (.num n) => left; rfl
                | some (.arr a) => left; rfl
                | some (.obj o) => left; rfl
                | some (.str oid) =>
                    dsimp only
                    cases hl : lookupPending oid s.pendingMessages with
                    | none => left; rfl
                    | some ts =>
                        right
                        refine ⟨?_, oid, ?_, ?_⟩
                        · unfold typeIsAckNack
                          rw [hty]
                          exact hack
                        · unfold ackOriginalId
                          rw [hp]
                          dsimp only
                          rw [ho]
                        · rw [hl]
                          exact Option.some_ne_none ts
      · rw [Bool.not_eq_true] at hack
        rw [hack]
        simp only [Bool.false_eq_true, if_false]
        by_cases hhr : jsEqStr tyV "HANDSHAKE_RESPONSE" = true
        · rw [hhr]
          simp only [if_true]
          cases hp : jsField v "payload" with
          | error e => left; rfl
          | ok payloadV =>
              dsimp only
              cases hsid : jsFieldO payloadV "sessionId" with
              | error e => left; rfl
              | ok sid =>
                  dsimp only
                  cases hdev : jsFieldO payloadV "deviceInfo" with
                  | error e => left; rfl
                  | ok dev => left; rfl
        · rw [Bool.not_eq_true] at hhr
          rw [hhr]
          simp only [Bool.false_eq_true, if_false]
          left; trivial

/-- C9: `processIncomingMessage` is total at its interface: for every
input string the outer catch swallows parse failures and body throws, so
no exception escapes; a string that fails to parse leaves the state
untouched; a parsed message whose type is not Ack/Nack leaves the
pending-request table unchanged; and an Ack/Nack whose
`originalMessageId` matches no table entry leaves the table unchanged. -/
theorem c9_processIncomingMessage_total (s : ProtState) (raw : String) :
    ((processIncomingMessageE s raw).2 = none) ∧
    (parseJson raw = none → processIncomingMessage s raw = s) ∧
    (∀ v, parseJson raw = some v → typeIsAckNack v = false →
      (processIncomingMessage s raw).pendingMessages = s.pendingMessages) ∧
    (∀ v, parseJson raw = some v →
      (∀ oid, ackOriginalId v = some oid →
        lookupPending oid s.pendingMessages = none) →
      (processIncomingMessage s raw).pendingMessages = s.pendingMessages) := by
  have hrun : ∀ v, parseJson raw = some v →
      processIncomingMessage s raw = (processParsedMessage s v).1 := by
    intro v hv
    unfold processIncomingMessage processIncomingMessageE
    rw [hv]
    dsimp only
    cases hb : processParsedMessage s v with
    | mk s' exc =>
        cases exc with
        | none => rfl
        | some u => rfl
  refine ⟨?_, ?_, ?_, ?_⟩
  · unfold processIncomingMessageE
    cases h : parseJson raw with
    | none => rfl
    | some v =>
        dsimp only
        cases hb : processParsedMessage s v with
        | mk s' exc =>
            cases exc with
            | none => rfl
            | some u => rfl
  · intro h
    unfold processIncomingMessage processIncomingMessageE
    rw [h]
  · intro v hv hty
    rcases processParsedMessage_table s v with hkeep | ⟨hack, _⟩
    · rw [hrun v hv]
      exact hkeep
    · rw [hty] at hack
      exact absurd hack (by simp)
  · intro v hv hnomatch
    rcases processParsedMessage_table s v with hkeep | ⟨_, oid, hoid, hlook⟩
    · rw [hrun v hv]
      exact hkeep
    · exact absurd (hnomatch oid hoid) hlook

/-- Witness for C9: a non-JSON input, a non-Ack message, and an Ack whose
`originalMessageId` is absent from the (empty) table. -/
theorem c9_processIncomingMessage_total_witness :
    ((processIncomingMessageE ⟨[], false, none, none⟩ "not json").2 = none) ∧
    (processIncomingMessage ⟨[], false, none, none⟩ "not json"
      = ⟨[], false, none, none⟩) ∧
    ((processIncomingMessage ⟨[], false, none, none⟩
        "\x7b\"type\":\"DATA\"\x7d").pendingMessages = []) ∧
    ((processIncomingMessage ⟨[], false, none, none⟩
        "\x7b\"type\":\"ACK\",\"payload\":\x7b\"originalMessageId\":\"m1\"\x7d\x7d").pendingMessages
      = []) := by
  refine ⟨?_, ?_, ?_, ?_⟩
  · exact (c9_processIncomingMessage_total ⟨[], false, none, none⟩ "not json").1
  · exact (c9_processIncomingMessage_total ⟨[], false, none, none⟩ "not json").2.1
      (by rfl)
  · exact (c9_processIncomingMessage_total ⟨[], false, none, none⟩
      "\x7b\"type\":\"DATA\"\x7d").2.2.1
      (.obj [("type", .str "DATA")]) (by rfl) (by rfl)
  · exact (c9_processIncomingMessage_total ⟨[], false, none, none⟩
      "\x7b\"type\":\"ACK\",\"payload\":\x7b\"originalMessageId\":\"m1\"\x7d\x7d").2.2.2
      (.obj [("type", .str "ACK"),
        ("payload", .obj [("originalMessageId", .str "m1")])])
      (by rfl) (fun oid _ => rfl)

/-! ## USBService connection state machine -/

/-- `ConnectionState` of the USB service. -/
inductive ConnState where
  | disconnected
  | connecting
  | connected
  | handshaking
  | ready
  | error
deriving DecidableEq, Repr

/-- `ConnectionError` kinds. -/
inductive ConnError where
  | timeout
  | deviceNotFound
  | permissionDenied
  | handshakeFailed
  | deviceDisconnected
  | unknown
deriving DecidableEq, Repr

/-- The USBService fields the connection lifecycle reads and writes.
Timers are modelled by whether they are armed. -/
structure USBState where
  connectionState : ConnState
  connectionError : Option ConnError
  connectionAttempts : Nat
  connectionTimerArmed : Bool
  reconnectTimerArmed : Bool
  autoReconnect : Bool
  isConnected : Bool
deriving DecidableEq, Repr

/-- `setConnectionState`: records state and error, refreshes the
backward-compatibility `isConnected` flag, and clears the connection
timer when the new state is `READY` or `ERROR`. -/
def setConnectionState (s : USBState) (st : ConnState) (err : Option ConnError) :
    USBState :=
  let s1 : USBState :=
    { s with connectionState := st, connectionError := err,
             isConnected := decide (st = .ready) }
  if st = .ready ∨ st = .error then { s1 with connectionTimerArmed := false } else s1

/-- `scheduleReconnect`: clears any prior reconnect timer and arms a new
one, to fire after `reconnectDelay connectionAttempts`. -/
def scheduleReconnect (s : USBState) : USBState :=
  { s with reconnectTimerArmed := true }

/-- `clearConnectionTimer`. -/
def clearConnectionTimer (s : USBState) : USBState :=
  { s with connectionTimerArmed := false }

/-- The `error?.code` switch of the native `onError` listener. -/
def classifyNativeError (code : String) : ConnError :=
  if code = "EACCES" ∨ code = "EPERM" then .permissionDenied
  else if code = "ENOENT" ∨ code = "ENODEV" then .deviceNotFound
  else if code = "ETIMEDOUT" then .timeout
  else if code = "ENOTCONN" then .deviceDisconnected
  else .unknown

/-- Whether `pre` is a prefix of the second list. -/
def listPrefixOf : List Char → List Char → Bool
  | [], _ => true
  | _ :: _, [] => false
  | a :: as, b :: bs => a == b && listPrefixOf as bs

/-- Whether `needle` occurs as a contiguous run in `hay`. -/
def listInfixOf (needle : List Char) : List Char → Bool
  | [] => needle.isEmpty
  | c :: rest => listPrefixOf needle (c :: rest) || listInfixOf needle rest

/-- JS `hay.includes(needle)`. -/
def jsIncludes (hay needle : String) : Bool :=
  listInfixOf needle.data hay.data

/-- The `error.message` inspection in `connect`'s catch block. -/
def classifyConnectError (msg : String) : ConnError :=
  if jsIncludes msg "permission" then .permissionDenied
  else if jsIncludes msg "not found" || jsIncludes msg "no device" then .deviceNotFound
  else .unknown

/-- `onDeviceConnected` native event: enter `CONNECTED`, reset the
attempt counter, and start `performHandshake`, whose guard sees
`CONNECTED` and moves the state to `HANDSHAKING`. The second component of
every handler's result records whether the handler called
`scheduleReconnect`. -/
def handleDeviceConnected (s : USBState) : USBState × Bool :=
  let s1 := setConnectionState s .connected none
  let s2 := { s1 with connectionAttempts := 0 }
  (setConnectionState s2 .handshaking none, false)

/-- `onDeviceDisconnected` native event: reset the protocol, enter
`DISCONNECTED`, and schedule a reconnect when auto-reconnect is on. -/
def handleDeviceDisconnected (s : USBState) : USBState × Bool :=
  let s1 := setConnectionState s .disconnected none
  if s1.autoReconnect = true then (scheduleReconnect s1, true) else (s1, false)

/-- `onError` native event: classify the code, enter `ERROR`, and
schedule a reconnect unless auto-reconnect is off or the error is
`PERMISSION_DENIED`. -/
def handleNativeError (code : String) (s : USBState) : USBState × Bool :=
  let err := classifyNativeError code
  let s1 := setConnectionState s .error (some err)
  if s1.autoReconnect = true ∧ err ≠ .permissionDenied then
    (scheduleReconnect s1, true)
  else (s1, false)

/-- The connection-timeout timer callback armed by `connect`: if the state
is still `CONNECTING` when it fires, enter `ERROR(TIMEOUT)` and retry
below the attempt ceiling. -/
def handleConnectionTimeout (s : USBState) : USBState × Bool :=
  if s.connectionState = .connecting then
    let s1 := setConnectionState s .error (some .timeout)
    if s1.connectionAttempts < MAX_CONNECTION_RETRIES ∧ s1.autoReconnect = true then
      let s2 := { s1 with connectionAttempts := s1.connectionAttempts + 1 }
      (scheduleReconnect s2, true)
    else (s1, false)
  else (s, false)

/-- The synchronous prefix of `connect` once the early returns are passed:
clear the old timer, enter `CONNECTING`, and arm the connection-timeout
timer. -/
def connectStart (s : USBState) : USBState :=
  let s1 := clearConnectionTimer s
  let s2 := setConnectionState s1 .connecting none
  { s2 with connectionTimerArmed := true }

/-- The remainder of `connect`: `outcome` is the result of the transport
`USBModule.connectDevice()` call (`.error msg` = it threw). Returns
(return value, state, whether a reconnect was scheduled). -/
def connectFinish (s : USBState) (outcome : Except String Unit) :
    Bool × USBState × Bool :=
  match outcome with
  | .ok _ => (true, s, false)
  | .error msg =>
      let err := classifyConnectError msg
      let s1 := setConnectionState s .error (some err)
      if (s1.connectionAttempts < MAX_CONNECTION_RETRIES ∧ s1.autoReconnect = true)
          ∧ err ≠ .permissionDenied then
        let s2 := { s1 with connectionAttempts := s1.connectionAttempts + 1 }
        (false, scheduleReconnect s2, true)
      else (false, s1, false)

/-- `connect()`: no-op returning false when already `CONNECTING`, returns
true immediately when already `READY`, otherwise runs
`connectStart` then `connectFinish`. -/
def connect (s : USBState) (outcome : Except String Unit) :
    Bool × USBState × Bool :=
  if s.connectionState = .connecting then (false, s, false)
  else if s.connectionState = .ready then (true, s, false)
  else connectFinish (connectStart s) outcome

/-- The failure continuation of `performHandshake`:
`ERROR(HANDSHAKE_FAILED)`, retrying below the attempt ceiling. -/
def handleHandshakeFailure (s : USBState) : USBState × Bool :=
  let s1 := setConnectionState s .error (some .handshakeFailed)
  if s1.connectionAttempts < MAX_CONNECTION_RETRIES ∧ s1.autoReconnect = true then
    let s2 := { s1 with connectionAttempts := s1.connectionAttempts + 1 }
    (scheduleReconnect s2, true)
  else (s1, false)

/-- The success continuation of `performHandshake` (and the registered
`HANDSHAKE_RESPONSE` handler): the state becomes `READY`. -/
def handleHandshakeSuccess (s : USBState) : USBState × Bool :=
  (setConnectionState s .ready none, false)

/-- The events driving the connection lifecycle. -/
inductive USBEventStep where
  | deviceConnected
  | deviceDisconnected
  | nativeError (code : String)
  | connectCall (outcome : Except String Unit)
  | connectionTimeout
  | handshakeFailure
  | handshakeSuccess

/-- One lifecycle step: the state reached and whether the step scheduled
an auto-reconnect attempt. -/
def usbStep : USBEventStep → USBState → USBState × Bool
  | .deviceConnected, s => handleDeviceConnected s
  | .deviceDisconnected, s => handleDeviceDisconnected s
  | .nativeError code, s => handleNativeError code s
  | .connectCall outcome, s => (connect s outcome).2
  | .connectionTimeout, s => handleConnectionTimeout s
  | .handshakeFailure, s => handleHandshakeFailure s
  | .handshakeSuccess, s => handleHandshakeSuccess s

@[simp] theorem setCS_state (s : USBState) (st : ConnState) (err : Option ConnError) :
    (setConnectionState s st err).connectionState = st := by
  unfold setConnectionState
  by_cases h : st = ConnState.ready ∨ st = ConnState.error
  · rw [if_pos h]
  · rw [if_neg h]

@[simp] theorem setCS_error (s : USBState) (st : ConnState) (err : Option ConnError) :
    (setConnectionState s st err).connectionError = err := by
  unfold setConnectionState
  by_cases h : st = ConnState.ready ∨ st = ConnState.error
  · rw [if_pos h]
  · rw [if_neg h]

@[simp] theorem setCS_attempts (s : USBState) (st : ConnState) (err : Option ConnError) :
    (setConnectionState s st err).connectionAttempts = s.connectionAttempts := by
  unfold setConnectionState
  by_cases h : st = ConnState.ready ∨ st = ConnState.error
  · rw [if_pos h]
  · rw [if_neg h]

@[simp] theorem setCS_autoRec (s : USBState) (st : ConnState) (err : Option ConnError) :
    (setConnectionState s st err).autoReconnect = s.autoReconnect := by
  unfold setConnectionState
  by_cases h : st = ConnState.ready ∨ st = ConnState.error
  · rw [if_pos h]
  · rw [if_neg h]

@[simp] theorem scheduleReconnect_state (s : USBState) :
    (scheduleReconnect s).connectionState = s.connectionState := rfl

@[simp] theorem scheduleReconnect_error (s : USBState) :
    (scheduleReconnect s).connectionError = s.connectionError := rfl

@[simp] theorem connectStart_state (s : USBState) :
    (connectStart s).connectionState = .connecting := by
  unfold connectStart clearConnectionTimer
  dsimp only
  rw [setCS_state]

@[simp] theorem connectStart_attempts (s : USBState) :
    (connectStart s).connectionAttempts = s.connectionAttempts := by
  unfold connectStart clearConnectionTimer
  dsimp only
  rw [setCS_attempts]

@[simp] theorem connectStart_autoRec (s : USBState) :
    (connectStart s).autoReconnect = s.autoReconnect := by
  unfold connectStart clearConnectionTimer
  dsimp only
  rw [setCS_autoRec]

@[simp] theorem connectStart_timer (s : USBState) :
    (connectStart s).connectionTimerArmed = true := rfl

/-- C7: `connect` returns false and changes nothing when already
`CONNECTING`; returns true and changes nothing when already `READY`; from
every other state it enters `CONNECTING` with the connection-timeout
timer armed (then continues with the transport outcome); and the timer
callback firing while still `CONNECTING` moves the state to
`ERROR(TIMEOUT)`. -/
theorem c7_connect_contract (s : USBState) (o : Except String Unit) :
    (s.connectionState = .connecting → connect s o = (false, s, false)) ∧
    (s.connectionState = .ready → connect s o = (true, s, false)) ∧
    (s.connectionState ≠ .connecting → s.connectionState ≠ .ready →
      ((connectStart s).connectionState = .connecting ∧
       (connectStart s).connectionTimerArmed = true ∧
       connect s o = connectFinish (connectStart s) o)) ∧
    (s.connectionState = .connecting →
      ((handleConnectionTimeout s).1.connectionState = .error ∧
       (handleConnectionTimeout s).1.connectionError = some .timeout)) := by
  refine ⟨?_, ?_, ?_, ?_⟩
  · intro h
    unfold connect
    rw [if_pos h]
  · intro h
    unfold connect
    have hne : ¬ s.connectionState = .connecting := by
      rw [h]
      simp
    rw [if_neg hne, if_pos h]
  · intro h1 h2
    refine ⟨connectStart_state s, rfl, ?_⟩
    unfold connect
    rw [if_neg h1, if_neg h2]
  · intro h
    unfold handleConnectionTimeout
    rw [if_pos h]
    dsimp only
    by_cases hc : (setConnectionState s .error (some .timeout)).connectionAttempts
        < MAX_CONNECTION_RETRIES ∧
        (setConnectionState s .error (some .timeout)).autoReconnect = true
    · rw [if_pos hc]
      exact ⟨setCS_state s .error (some .timeout), setCS_error s .error (some .timeout)⟩
    · rw [if_neg hc]
      exact ⟨setCS_state s .error (some .timeout), setCS_error s .error (some .timeout)⟩

/-- Witness for C7 at concrete states. -/
theorem c7_connect_contract_witness :
    connect ⟨.connecting, none, 0, true, false, true, false⟩ (.ok ())
      = (false, ⟨.connecting, none, 0, true, false, true, false⟩, false) ∧
    connect ⟨.ready, none, 0, false, false, true, true⟩ (.ok ())
      = (true, ⟨.ready, none, 0, false, false, true, true⟩, false) ∧
    ((connectStart ⟨.disconnected, none, 0, false, false, true, false⟩).connectionState
        = .connecting ∧
     (connectStart ⟨.disconnected, none, 0, false, false, true, false⟩).connectionTimerArmed
        = true ∧
     connect ⟨.disconnected, none, 0, false, false, true, false⟩ (.ok ())
        = connectFinish
            (connectStart ⟨.disconnected, none, 0, false, false, true, false⟩) (.ok ())) ∧
    ((handleConnectionTimeout
        ⟨.connecting, none, 0, true, false, true, false⟩).1.connectionState = .error ∧
     (handleConnectionTimeout
        ⟨.connecting, none, 0, true, false, true, false⟩).1.connectionError
        = some .timeout) := by
  refine ⟨?_, ?_, ?_, ?_⟩
  · exact (c7_connect_contract ⟨.connecting, none, 0, true, false, true, false⟩
      (.ok ())).1 rfl
  · exact (c7_connect_contract ⟨.ready, none, 0, false, false, true, true⟩
      (.ok ())).2.1 rfl
  · exact (c7_connect_contract ⟨.disconnected, none, 0, false, false, true, false⟩
      (.ok ())).2.2.1 (by decide) (by decide)
  · exact (c7_connect_contract ⟨.connecting, none, 0, true, false, true, false⟩
      (.ok ())).2.2.2 rfl

/-- C8: no lifecycle step that ends in `ERROR(PERMISSION_DENIED)` ever
schedules an auto-reconnect, whatever the auto-reconnect setting; every
step that enters `ERROR` with any other kind does schedule one when
auto-reconnect is enabled and the attempt ceiling is not reached. -/
theorem c8_permissionDenied_never_reconnects :
    (∀ (e : USBEventStep) (s : USBState),
      ((usbStep e s).1.connectionState = .error ∧
        (usbStep e s).1.connectionError = some .permissionDenied) →
      (usbStep e s).2 = false) ∧
    (∀ (e : USBEventStep) (s : USBState) (k : ConnError),
      s.connectionState ≠ .error →
      (usbStep e s).1.connectionState = .error →
      (usbStep e s).1.connectionError = some k →
      k ≠ .permissionDenied →
      s.autoReconnect = true →
      s.connectionAttempts < MAX_CONNECTION_RETRIES →
      (usbStep e s).2 = true) := by
  constructor
  · intro e s h
    obtain ⟨h1, h2⟩ := h
    cases e with
    | deviceConnected =>
        exfalso
        simp [usbStep, handleDeviceConnected] at h1
    | deviceDisconnected =>
        exfalso
        by_cases hc : s.autoReconnect = true <;>
          simp [usbStep, handleDeviceDisconnected, hc] at h1
    | nativeError code =>
        by_cases hcl : classifyNativeError code = .permissionDenied
        · simp [usbStep, handleNativeError, hcl]
        · exfalso
          by_cases har : s.autoReconnect = true <;>
            simp [usbStep, handleNativeError, hcl, har] at h2
    | connectCall o =>
        by_cases hcn : s.connectionState = .connecting
        · simp [usbStep, connect, hcn]
        · by_cases hrd : s.connectionState = .ready
          · simp [usbStep, connect, hcn, hrd]
          · cases o with
            | ok u => simp [usbStep, connect, hcn, hrd, connectFinish]
            | error msg =>
                by_cases hcl : classifyConnectError msg = .permissionDenied
                · simp [usbStep, connect, hcn, hrd, connectFinish, hcl]
                · exfalso
                  by_cases hrest : s.connectionAttempts < MAX_CONNECTION_RETRIES ∧
                      s.autoReconnect = true <;>
                    simp [usbStep, connect, hcn, hrd, connectFinish, hcl, hrest] at h2
    | connectionTimeout =>
        by_cases hcn : s.connectionState = .connecting
        · by_cases hc : s.connectionAttempts < MAX_CONNECTION_RETRIES ∧
              s.autoReconnect = true
          · simp [usbStep, handleConnectionTimeout, hcn, hc] at h2
          · simp [usbStep, handleConnectionTimeout, hcn, hc]
        · simp [usbStep, handleConnectionTimeout, hcn]
    | handshakeFailure =>
        by_cases hc : s.connectionAttempts < MAX_CONNECTION_RETRIES ∧
            s.autoReconnect = true
        · simp [usbStep, handleHandshakeFailure, hc] at h2
        · simp [usbStep, handleHandshakeFailure, hc]
    | handshakeSuccess =>
        exfalso
        simp [usbStep, handleHandshakeSuccess] at h1
  · intro e s k hpre h1 h2 hk har hat
    cases e with
    | deviceConnected =>
        exfalso
        simp [usbStep, handleDeviceConnected] at h1
    | deviceDisconnected =>
        exfalso
        by_cases hc : s.autoReconnect = true <;>
          simp [usbStep, handleDeviceDisconnected, hc] at h1
    | nativeError code =>
        by_cases hcl : classifyNativeError code = .permissionDenied
        · exfalso
          simp [usbStep, handleNativeError, hcl] at h2
          rw [← h2] at hk
          exact hk rfl
        · simp [usbStep, handleNativeError, hcl, har]
    | connectCall o =>
        by_cases hcn : s.connectionState = .connecting
        · exfalso
          simp [usbStep, connect, hcn] at h1
        · by_cases hrd : s.connectionState = .ready
          · exfalso
            simp [usbStep, connect, hcn, hrd] at h1
          · cases o with
            | ok u =>
                exfalso
                simp [usbStep, connect, hcn, hrd, connectFinish] at h1
            | error msg =>
                by_cases hcl : classifyConnectError msg = .permissionDenied
                · exfalso
                  simp [usbStep, connect, hcn, hrd, connectFinish, hcl] at h2
                  rw [← h2] at hk
                  exact hk rfl
                · simp [usbStep, connect, hcn, hrd, connectFinish, hcl, har, hat]
    | connectionTimeout =>
        by_cases hcn : s.connectionState = .connecting
        · simp [usbStep, handleConnectionTimeout, hcn, har, hat]
        · exfalso
          simp [usbStep, handleConnectionTimeout, hcn] at h1
          exact hpre h1
    | handshakeFailure =>
        simp [usbStep, handleHandshakeFailure, har, hat]
    | handshakeSuccess =>
        exfalso
        simp [usbStep, handleHandshakeSuccess] at h1

/-- Witness for C8: a `PERMISSION_DENIED` native error (code `EACCES`)
schedules nothing even with auto-reconnect on; a `DEVICE_DISCONNECTED`
native error (code `ENOTCONN`) from a disconnected state with
auto-reconnect on and attempts below the ceiling schedules a reconnect. -/
theorem c8_permissionDenied_never_reconnects_witness :
    (usbStep (.nativeError "EACCES")
      ⟨.disconnected, none, 0, false, false, true, false⟩).2 = false ∧
    (usbStep (.nativeError "ENOTCONN")
      ⟨.disconnected, none, 0, false, false, true, false⟩).2 = true := by
  constructor
  · exact c8_permissionDenied_never_reconnects.1 (.nativeError "EACCES")
      ⟨.disconnected, none, 0, false, false, true, false⟩ ⟨by decide, by decide⟩
  · exact c8_permissionDenied_never_reconnects.2 (.nativeError "ENOTCONN")
      ⟨.disconnected, none, 0, false, false, true, false⟩ .deviceDisconnected
      (by decide) (by decide) (by decide) (by decide) rfl (by decide)

end Scann
